import Mathlib

/-
Shallow embedding of src/src/gauthctl.c (gauthctl: manage per-user gauth
2FA state files).

Modelling conventions:
  * The filesystem is a map from path strings to optional files; a file
    carries its byte content (a list of byte values) and its permission
    mode bits.  Directories, symlinks and ownership are outside the model.
  * Syscall outcomes that depend on the environment (errno results of
    unlink/open/write/rename, and the byte stream on fd 3) are supplied
    explicitly: the fd-3 stream is a list of read events (each read call
    consumes one event; an exhausted list means read returns 0), and a
    Faults record injects the error outcomes of the filesystem syscalls.
  * write(out_fd, buf, rd) may report fewer than rd bytes written
    (POSIX short write) or fail with -1; Faults.writeOutcomes supplies
    one outcome per write call (none = -1, some n = at most n bytes
    written); an exhausted list means the write transfers all bytes.
  * Machine integers do not overflow in any relevant computation, so byte
    values and modes are plain Nat with masking made explicit.
  * malloc failure and stdio diagnostics are not modelled; the C exit
    status is modelled as Option Nat, where none marks the paths on
    which the C main reads the uninitialized variable ret (undefined
    behavior, hence no defined exit status).
-/

/-- A regular file: byte content plus permission mode bits. -/
structure File where
  content : List Nat
  mode : Nat
deriving DecidableEq

/-- The filesystem: a map from paths to optional regular files. -/
abbrev Fs := String → Option File

/-- Create or replace the file at path `p`. -/
def fsSet (fs : Fs) (p : String) (f : File) : Fs :=
  fun q => if q = p then some f else fs q

/-- Remove the file at path `p` (no-op when absent, like unlink + ENOENT). -/
def fsRemove (fs : Fs) (p : String) : Fs :=
  fun q => if q = p then none else fs q

/-- Compiled-in state directory (the `GAUTH_STATEDIR` build constant; the
deployment value used throughout the specification scenarios). -/
def GAUTH_STATEDIR : String := "/var/lib/gauth"

/-- `get_state_path` (gauthctl.c lines 138-155): allocates a buffer and
formats `GAUTH_STATEDIR "/" username` into it via snprintf.  No
validation of the username is performed (allocation failure is not
modelled). -/
def get_state_path (username : String) : String :=
  GAUTH_STATEDIR ++ "/" ++ username

/-- One result of a `read(in_fd, buf, 4096)` call on fd 3: a chunk of
bytes (`rd` = its length, at most 4096) or a read error (-1). -/
inductive ReadEvent where
  | chunk (bytes : List Nat)
  | readErr
deriving DecidableEq

/-- Environment-injected errno outcomes for the syscalls made by `enable`
and `disable`. -/
structure Faults where
  /-- the pre-unlink of TempPath fails with an errno other than ENOENT -/
  preUnlinkFail : Bool
  /-- the exclusive-create `open` of TempPath fails for a reason other
  than an existing file (for example EACCES) -/
  openFail : Bool
  /-- outcome of each successive `write` call: `none` = -1,
  `some n` = short write of at most `n` bytes; exhausted = full write -/
  writeOutcomes : List (Option Nat)
  /-- the final `rename` fails -/
  renameFail : Bool
  /-- the `unlink` in `disable` fails with an errno other than ENOENT -/
  removeFail : Bool

/-- Apply the process umask to a requested creation mode. -/
def applyUmask (mode umask : Nat) : Nat :=
  Nat.land mode (Nat.xor 0o7777 umask)

/-- `open(path, O_WRONLY|O_CREAT|O_EXCL, mode)` under a umask: fails when
the path already exists (EEXIST), otherwise creates an empty file whose
mode is the requested mode masked by the umask. -/
def openExcl (fs : Fs) (p : String) (mode umask : Nat) : Option Fs :=
  match fs p with
  | some _ => none
  | none => some (fsSet fs p ⟨[], applyUmask mode umask⟩)

/-- The copy loop of `enable` (gauthctl.c lines 206-233): repeatedly
`read` into a 4096-byte buffer; `rd == 0` breaks, `rd == -1` is an error;
then `write(out_fd, buf, rd)`, where only `wr == -1` is treated as an
error (a short write `wr < rd` goes unchecked and the loop continues).
Returns (ok, bytes accumulated in the temp file, events left unread). -/
def copyLoop : List ReadEvent → List (Option Nat) → List Nat →
    Bool × List Nat × List ReadEvent
  | [], _, acc => (true, acc, [])
  | ReadEvent.readErr :: rest, _, acc => (false, acc, rest)
  | ReadEvent.chunk bs :: rest, ws, acc =>
    if bs.isEmpty then (true, acc, rest)
    else
      match ws with
      | [] => copyLoop rest [] (acc ++ bs)
      | Option.none :: _ => (false, acc, rest)
      | Option.some n :: ws1 => copyLoop rest ws1 (acc ++ bs.take n)

/-- Result of `enable`: the C return value, the filesystem afterwards,
and the fd-3 events not consumed. -/
structure EnableResult where
  ok : Bool
  fs : Fs
  remaining : List ReadEvent

/-- `enable` (gauthctl.c lines 163-250): build TempPath = state_path ++
".new"; pre-unlink it (a non-ENOENT failure aborts, leaving the
filesystem as it was); exclusive-create it at mode 0600 under the umask;
run the copy loop (on read/write error, close and unlink TempPath);
`close` with its result ignored; `rename` TempPath over state_path (on
failure, unlink TempPath). -/
def enable (fs : Fs) (umask : Nat) (state_path : String)
    (events : List ReadEvent) (faults : Faults) : EnableResult :=
  let tmp_buf := state_path ++ ".new"
  if faults.preUnlinkFail then
    ⟨false, fs, events⟩
  else
    let fs1 := fsRemove fs tmp_buf
    if faults.openFail then
      ⟨false, fs1, events⟩
    else
      match openExcl fs1 tmp_buf 0o600 umask with
      | none => ⟨false, fs1, events⟩
      | some fs2 =>
        match copyLoop events faults.writeOutcomes [] with
        | (false, _, rem) => ⟨false, fsRemove fs2 tmp_buf, rem⟩
        | (true, content, rem) =>
          let fs3 := fsSet fs2 tmp_buf ⟨content, applyUmask 0o600 umask⟩
          if faults.renameFail then
            ⟨false, fsRemove fs3 tmp_buf, rem⟩
          else
            ⟨true, fsSet (fsRemove fs3 tmp_buf) state_path
              ⟨content, applyUmask 0o600 umask⟩, rem⟩

/-- `disable` (gauthctl.c lines 257-268): `unlink(state_path)`; success
or errno ENOENT both report success; any other errno reports failure and
the filesystem is unchanged. -/
def disable (fs : Fs) (state_path : String) (unlinkFail : Bool) :
    Bool × Fs :=
  if unlinkFail then (false, fs)
  else (true, fsRemove fs state_path)

/-- `fopen(filename, "r")`: succeeds when the file exists and its mode
grants read permission to the owning process (owner-read bit 0400). -/
def fopenRead (fs : Fs) (p : String) : Option File :=
  match fs p with
  | some f => if Nat.land f.mode 0o400 ≠ 0 then some f else none
  | none => none

/-- `status` (gauthctl.c lines 270-281): true iff `fopen(filename, "r")`
succeeds; the file is closed again, nothing is mutated. -/
def status (fs : Fs) (filename : String) : Bool :=
  (fopenRead fs filename).isSome

/-- `authenticate` (gauthctl.c lines 87-131), parametrized by the PAM
outcomes of pam_start / pam_authenticate / pam_acct_mgmt / pam_end.  The
source overwrites the pam_authenticate result with PAM_SUCCESS on line
106 before testing it, which the shadowing `let` reproduces. -/
def authenticate (pamStart pamAuth pamAcct pamEnd : Bool) : Bool :=
  if pamStart = false then false
  else
    let ret := pamAuth
    let ret := true
    if ret = false then false
    else if pamAcct = false then false
    else if pamEnd = false then false
    else true

/-- The selected command (`enum command`; `CMD_DISABLE` carries the
`givenuser` recorded by the same `-d` option that selected it). -/
inductive Cmd where
  | null
  | enable
  | disable (givenuser : String)
  | status
deriving DecidableEq

/-- One token as classified by `getopt_long` with option string "e:d:shV"
and the long options table: an option recognized as one of
'e'/'d'/'s'/'h'/'V', an unrecognized option (getopt returns a question
mark), or a non-option argument (GNU getopt permutes these past the
options). -/
inductive Arg where
  | enableOpt
  | disableOpt (username : String)
  | statusOpt
  | helpOpt
  | versionOpt
  | unknownOpt
  | positional (s : String)
deriving DecidableEq

/-- Outcome of the getopt loop plus the post-loop
`cmd == CMD_NULL || optind != argc` check (gauthctl.c lines 293-321). -/
inductive ParseResult where
  | exitHelp
  | exitVersion
  | exitUsage
  | parsed (cmd : Cmd)
deriving DecidableEq

/-- The getopt loop of `main`: each action option overwrites `cmd` (and,
for 'd', `givenuser`); 'h' returns `usage(argv0, true)` (exit 0), 'V'
prints the version (exit 0), an unrecognized option returns
`usage(argv0, false)` (exit 1); non-option arguments survive the loop
and make the final `optind != argc` check fail. -/
def parseLoop : List Arg → Cmd → Bool → ParseResult
  | [], cmd, sawPositional =>
    if cmd = Cmd.null ∨ sawPositional = true then ParseResult.exitUsage
    else ParseResult.parsed cmd
  | Arg.enableOpt :: rest, _, sawPositional =>
    parseLoop rest Cmd.enable sawPositional
  | Arg.disableOpt u :: rest, _, sawPositional =>
    parseLoop rest (Cmd.disable u) sawPositional
  | Arg.statusOpt :: rest, _, sawPositional =>
    parseLoop rest Cmd.status sawPositional
  | Arg.helpOpt :: _, _, _ => ParseResult.exitHelp
  | Arg.versionOpt :: _, _, _ => ParseResult.exitVersion
  | Arg.unknownOpt :: _, _, _ => ParseResult.exitUsage
  | Arg.positional _ :: rest, cmd, _ => parseLoop rest cmd true

/-- Whether a getopt token is a non-option (positional) argument. -/
def isPositionalArg : Arg → Bool
  | Arg.positional _ => true
  | _ => false

/-- The effect of one getopt token on the `cmd` variable of `main`. -/
def actionStep (cmd : Cmd) (a : Arg) : Cmd :=
  match a with
  | Arg.enableOpt => Cmd.enable
  | Arg.disableOpt u => Cmd.disable u
  | Arg.statusOpt => Cmd.status
  | _ => cmd

/-- Process-level inputs: the filesystem, the real UID, the password
database (`getpwuid`), and the inherited umask. -/
structure World where
  fs : Fs
  uid : Nat
  userdb : Nat → Option String
  umask : Nat

/-- `get_user` (gauthctl.c lines 73-80): `getpwuid(getuid())`. -/
def get_user (w : World) : Option String :=
  w.userdb w.uid

/-- Observable outcome of one run of `main`: exit status (`none` when
the C code reads the uninitialized `ret`, so no defined status), the
filesystem, the process umask, and the fd-3 events left unconsumed. -/
structure MainResult where
  exitCode : Option Nat
  fs : Fs
  umask : Nat
  remaining : List ReadEvent

/-- `main` (gauthctl.c lines 284-382; Lean reserves the name `main`, so
the embedding is named `mainC`): getopt loop, usage check, `umask(077)`,
`get_user`, `get_state_path` for the invoker (the `authenticate` call is
commented out in the source), then the command switch.  `CMD_ENABLE`
runs `enable` only when `status(state_path)` is false, otherwise prints
an error and leaves `ret` uninitialized; `CMD_DISABLE` requires
`getuid() == 0` and re-derives the path for `givenuser`, otherwise
prints an error and leaves `ret` uninitialized; `CMD_STATUS` sets
`ret = status(state_path)`.  Exit is `ret ? 0 : 1`. -/
def mainC (w : World) (args : List Arg) (events : List ReadEvent)
    (faults : Faults) : MainResult :=
  match parseLoop args Cmd.null false with
  | ParseResult.exitHelp => ⟨some 0, w.fs, w.umask, events⟩
  | ParseResult.exitVersion => ⟨some 0, w.fs, w.umask, events⟩
  | ParseResult.exitUsage => ⟨some 1, w.fs, w.umask, events⟩
  | ParseResult.parsed cmd =>
    match get_user w with
    | none => ⟨some 1, w.fs, 0o77, events⟩
    | some username =>
      let state_path := get_state_path username
      match cmd with
      | Cmd.null => ⟨none, w.fs, 0o77, events⟩
      | Cmd.enable =>
        if status w.fs state_path = false then
          let r := enable w.fs 0o77 state_path events faults
          ⟨some (if r.ok then 0 else 1), r.fs, 0o77, r.remaining⟩
        else
          ⟨none, w.fs, 0o77, events⟩
      | Cmd.disable givenuser =>
        if w.uid = 0 then
          let r := disable w.fs (get_state_path givenuser) faults.removeFail
          ⟨some (if r.1 then 0 else 1), r.2, 0o77, events⟩
        else
          ⟨none, w.fs, 0o77, events⟩
      | Cmd.status =>
        ⟨some (if status w.fs state_path then 0 else 1), w.fs, 0o77, events⟩

/-- A path never equals itself with the ".new" suffix appended. -/
theorem self_ne_append_new (s : String) : s ≠ s ++ ".new" := by
  intro h
  have hlen : s.length = (s ++ ".new").length := congrArg String.length h
  rw [String.length_append] at hlen
  have h4 : (".new" : String).length = 4 := by decide
  omega

theorem fsRemove_self (fs : Fs) (p : String) : fsRemove fs p p = none := by
  simp [fsRemove]

theorem fsRemove_other (fs : Fs) (p q : String) (h : q ≠ p) :
    fsRemove fs p q = fs q := by
  simp [fsRemove, h]

theorem fsSet_other (fs : Fs) (p q : String) (f : File) (h : q ≠ p) :
    fsSet fs p f q = fs q := by
  simp [fsSet, h]

theorem fsSet_self (fs : Fs) (p : String) (f : File) :
    fsSet fs p f p = some f := by
  simp [fsSet]

theorem openExcl_after_remove (fs : Fs) (p : String) (m u : Nat) :
    openExcl (fsRemove fs p) p m u =
      some (fsSet (fsRemove fs p) p ⟨[], applyUmask m u⟩) := by
  simp [openExcl, fsRemove_self]

/-- Exclusive creation refuses an existing path. -/
theorem openExcl_existing (fs : Fs) (p : String) (m u : Nat)
    (h : fs p ≠ none) : openExcl fs p m u = none := by
  rcases hfp : fs p with _ | f
  · exact absurd hfp h
  · simp [openExcl, hfp]

/-- Pointwise effect of `enable`: every path is either untouched,
removed, or holds a file created at the umask-masked mode 0600. -/
theorem enable_fs_cases (fs : Fs) (umask : Nat) (sp : String)
    (ev : List ReadEvent) (faults : Faults) (p : String) :
    (enable fs umask sp ev faults).fs p = fs p ∨
    (enable fs umask sp ev faults).fs p = none ∨
    ∃ c, (enable fs umask sp ev faults).fs p =
      some ⟨c, applyUmask 0o600 umask⟩ := by
  by_cases hpu : faults.preUnlinkFail
  · left; simp [enable, hpu]
  · by_cases hpt : p = sp ++ ".new"
    · subst hpt
      by_cases hop : faults.openFail
      · right; left; simp [enable, hpu, hop, fsRemove_self]
      · rcases hcl : copyLoop ev faults.writeOutcomes [] with ⟨ok, content, rem⟩
        cases ok with
        | false =>
          right; left
          simp [enable, hpu, hop, openExcl_after_remove, hcl, fsRemove_self]
        | true =>
          by_cases hrn : faults.renameFail
          · right; left
            simp [enable, hpu, hop, openExcl_after_remove, hcl, hrn,
              fsRemove_self]
          · have hne : sp ≠ sp ++ ".new" := self_ne_append_new sp
            right; left
            simp [enable, hpu, hop, openExcl_after_remove, hcl, hrn,
              fsSet_other _ _ _ _ (Ne.symm hne), fsRemove_self]
    · by_cases hop : faults.openFail
      · left; simp [enable, hpu, hop, fsRemove_other _ _ _ hpt]
      · rcases hcl : copyLoop ev faults.writeOutcomes [] with ⟨ok, content, rem⟩
        cases ok with
        | false =>
          left
          simp [enable, hpu, hop, openExcl_after_remove, hcl,
            fsRemove_other _ _ _ hpt, fsSet_other _ _ _ _ hpt]
        | true =>
          by_cases hrn : faults.renameFail
          · left
            simp [enable, hpu, hop, openExcl_after_remove, hcl, hrn,
              fsRemove_other _ _ _ hpt, fsSet_other _ _ _ _ hpt]
          · by_cases hsp : p = sp
            · subst hsp
              right; right
              exact ⟨content, by
                simp [enable, hpu, hop, openExcl_after_remove, hcl, hrn,
                  fsSet_self]⟩
            · left
              simp [enable, hpu, hop, openExcl_after_remove, hcl, hrn,
                fsRemove_other _ _ _ hpt, fsSet_other _ _ _ _ hpt,
                fsSet_other _ _ _ _ hsp]

/-- A successful `enable` leaves at state_path a file created at the
umask-masked mode 0600. -/
theorem enable_success_mode (fs : Fs) (umask : Nat) (sp : String)
    (ev : List ReadEvent) (faults : Faults)
    (h : (enable fs umask sp ev faults).ok = true) :
    ∃ c, (enable fs umask sp ev faults).fs sp =
      some ⟨c, applyUmask 0o600 umask⟩ := by
  by_cases hpu : faults.preUnlinkFail
  · exfalso; simp [enable, hpu] at h
  · by_cases hop : faults.openFail
    · exfalso; simp [enable, hpu, hop] at h
    · rcases hcl : copyLoop ev faults.writeOutcomes [] with ⟨ok, content, rem⟩
      cases ok with
      | false =>
        exfalso; simp [enable, hpu, hop, openExcl_after_remove, hcl] at h
      | true =>
        by_cases hrn : faults.renameFail
        · exfalso
          simp [enable, hpu, hop, openExcl_after_remove, hcl, hrn] at h
        · exact ⟨content, by
            simp [enable, hpu, hop, openExcl_after_remove, hcl, hrn,
              fsSet_self]⟩

/-- Pointwise effect of one `main` run: every path is either untouched,
removed, or holds a file of mode 0600. -/
theorem main_fs_cases (w : World) (args : List Arg) (ev : List ReadEvent)
    (faults : Faults) (p : String) :
    (mainC w args ev faults).fs p = w.fs p ∨
    (mainC w args ev faults).fs p = none ∨
    ∃ c, (mainC w args ev faults).fs p = some ⟨c, 0o600⟩ := by
  have hmask : applyUmask 0o600 0o77 = 0o600 := by decide
  rcases hp : parseLoop args Cmd.null false with _ | _ | _ | cmd
  · left; simp [mainC, hp]
  · left; simp [mainC, hp]
  · left; simp [mainC, hp]
  · rcases hu : get_user w with _ | username
    · left; simp [mainC, hp, hu]
    · cases cmd with
      | null => left; simp [mainC, hp, hu]
      | enable =>
        by_cases hst : status w.fs (get_state_path username) = false
        · have := enable_fs_cases w.fs 0o77 (get_state_path username) ev faults p
          rw [hmask] at this
          rcases this with h1 | h1 | ⟨c, h1⟩
          · left; simp [mainC, hp, hu, hst, h1]
          · right; left; simp [mainC, hp, hu, hst, h1]
          · right; right; exact ⟨c, by simp [mainC, hp, hu, hst, h1]⟩
        · left; simp [mainC, hp, hu, hst]
      | disable givenuser =>
        by_cases hroot : w.uid = 0
        · by_cases hrf : faults.removeFail
          · left; simp [mainC, hp, hu, hroot, disable, hrf]
          · by_cases hq : p = get_state_path givenuser
            · right; left
              subst hq
              simp [mainC, hp, hu, hroot, disable, hrf, fsRemove_self]
            · left
              simp [mainC, hp, hu, hroot, disable, hrf,
                fsRemove_other _ _ _ hq]
        · left; simp [mainC, hp, hu, hroot]
      | status => left; simp [mainC, hp, hu]

/-- As soon as the command line parses, `main` has set the umask to 077
(gauthctl.c line 323, before any file-creating call). -/
theorem main_umask_after_parse (w : World) (args : List Arg)
    (ev : List ReadEvent) (faults : Faults) (c : Cmd)
    (hp : parseLoop args Cmd.null false = ParseResult.parsed c) :
    (mainC w args ev faults).umask = 0o77 := by
  rcases hu : get_user w with _ | username
  · simp [mainC, hp, hu]
  · cases c with
    | null => simp [mainC, hp, hu]
    | enable =>
      by_cases hst : status w.fs (get_state_path username) = false
      · simp [mainC, hp, hu, hst]
      · simp [mainC, hp, hu, hst]
    | disable g =>
      by_cases hroot : w.uid = 0
      · simp [mainC, hp, hu, hroot]
      · simp [mainC, hp, hu, hroot]
    | status => simp [mainC, hp, hu]

/-- Characterization of a completed getopt loop: a command is selected
only when no non-option argument was seen, and the command selected is
the one set by the last action option (earlier action options are
silently overwritten). -/
theorem parseLoop_parsed (args : List Arg) (cmd : Cmd) (pos : Bool)
    (c : Cmd) (h : parseLoop args cmd pos = ParseResult.parsed c) :
    (∀ a ∈ args, isPositionalArg a = false) ∧ pos = false ∧
      c = List.foldl actionStep cmd args ∧ c ≠ Cmd.null := by
  induction args generalizing cmd pos with
  | nil =>
    by_cases hc : cmd = Cmd.null ∨ pos = true
    · simp [parseLoop, hc] at h
    · push_neg at hc
      simp [parseLoop, hc.1, hc.2] at h
      subst h
      exact ⟨by simp, by simpa using hc.2, by simp, hc.1⟩
  | cons a rest ih =>
    cases a with
    | enableOpt =>
      rcases ih Cmd.enable pos h with ⟨h1, h2, h3, h4⟩
      exact ⟨by simpa [isPositionalArg] using h1, h2,
        by simpa [actionStep] using h3, h4⟩
    | disableOpt u =>
      rcases ih (Cmd.disable u) pos h with ⟨h1, h2, h3, h4⟩
      exact ⟨by simpa [isPositionalArg] using h1, h2,
        by simpa [actionStep] using h3, h4⟩
    | statusOpt =>
      rcases ih Cmd.status pos h with ⟨h1, h2, h3, h4⟩
      exact ⟨by simpa [isPositionalArg] using h1, h2,
        by simpa [actionStep] using h3, h4⟩
    | helpOpt => simp [parseLoop] at h
    | versionOpt => simp [parseLoop] at h
    | unknownOpt => simp [parseLoop] at h
    | positional s =>
      rcases ih cmd true h with ⟨_, h2, _, _⟩
      exact absurd h2 (by simp)

/-- A command line consisting only of non-option arguments (in
particular, an empty one) selects no command and yields the usage
message. -/
theorem parseLoop_only_positionals (args : List Arg) (pos : Bool)
    (h : ∀ a ∈ args, isPositionalArg a = true) :
    parseLoop args Cmd.null pos = ParseResult.exitUsage := by
  induction args generalizing pos with
  | nil => simp [parseLoop]
  | cons a rest ih =>
    cases a with
    | positional s => exact ih true (fun x hx => h x (by simp [hx]))
    | enableOpt =>
      exact absurd (h Arg.enableOpt (by simp)) (by simp [isPositionalArg])
    | disableOpt u =>
      exact absurd (h (Arg.disableOpt u) (by simp)) (by simp [isPositionalArg])
    | statusOpt =>
      exact absurd (h Arg.statusOpt (by simp)) (by simp [isPositionalArg])
    | helpOpt =>
      exact absurd (h Arg.helpOpt (by simp)) (by simp [isPositionalArg])
    | versionOpt =>
      exact absurd (h Arg.versionOpt (by simp)) (by simp [isPositionalArg])
    | unknownOpt =>
      exact absurd (h Arg.unknownOpt (by simp)) (by simp [isPositionalArg])

/-- A usage error exits with status 1 before the umask call, touching
neither the filesystem nor the fd-3 stream. -/
theorem main_usage_exit (w : World) (args : List Arg)
    (ev : List ReadEvent) (faults : Faults)
    (h : parseLoop args Cmd.null false = ParseResult.exitUsage) :
    (mainC w args ev faults).exitCode = some 1 ∧
    (∀ q, (mainC w args ev faults).fs q = w.fs q) ∧
    (mainC w args ev faults).remaining = ev := by
  refine ⟨by simp [mainC, h], fun q => by simp [mainC, h],
    by simp [mainC, h]⟩

/-- `status` is true exactly when the path maps to a file whose mode has
the owner-read bit. -/
theorem status_iff_readable (fs : Fs) (p : String) :
    status fs p = true ↔
      ∃ f, fs p = some f ∧ Nat.land f.mode 0o400 ≠ 0 := by
  simp only [status, fopenRead]
  rcases h : fs p with _ | f
  · simp [h]
  · by_cases hm : Nat.land f.mode 0o400 ≠ 0
    · simp [h, hm]
    · simp [h, hm]

/-- The `--status` dispatch: exit 0 when `status` reports the state file
present, exit 1 otherwise, with no mutation and no fd-3 read. -/
theorem main_status_behavior (w : World) (args : List Arg)
    (ev : List ReadEvent) (faults : Faults) (name : String)
    (hp : parseLoop args Cmd.null false = ParseResult.parsed Cmd.status)
    (hu : get_user w = some name) :
    (mainC w args ev faults).exitCode =
      some (if status w.fs (get_state_path name) then 0 else 1) ∧
    (∀ q, (mainC w args ev faults).fs q = w.fs q) ∧
    (mainC w args ev faults).remaining = ev := by
  refine ⟨by simp [mainC, hp, hu], fun q => by simp [mainC, hp, hu],
    by simp [mainC, hp, hu]⟩

/-- A root `--disable USERNAME` unlinks `GAUTH_STATEDIR ++ "/" ++
USERNAME` for an arbitrary username string and reports success. -/
theorem main_root_disable (w : World) (ev : List ReadEvent)
    (faults : Faults) (u name : String) (hroot : w.uid = 0)
    (hdb : w.userdb 0 = some name) (hrf : faults.removeFail = false) :
    (mainC w [Arg.disableOpt u] ev faults).exitCode = some 0 ∧
    (mainC w [Arg.disableOpt u] ev faults).fs
      (GAUTH_STATEDIR ++ "/" ++ u) = none := by
  have hparse : parseLoop [Arg.disableOpt u] Cmd.null false =
      ParseResult.parsed (Cmd.disable u) := by simp [parseLoop]
  constructor
  · simp [mainC, hparse, get_user, hroot, hdb, disable, hrf]
  · simp [mainC, hparse, get_user, hroot, hdb, disable, hrf,
      get_state_path, fsRemove_self]

/-- C1: the claim as frozen is false at the pre-unlink step.  When
TempPath already exists and the pre-unlink of it fails with a non-ENOENT
errno, `enable` fails (gauthctl.c lines 190-196) and returns with
TempPath still present, so "the TempPath does not exist after enable
returns" does not hold for the pre-unlink failure case the claim itself
enumerates. -/
theorem c1_counterexample_preunlink_leaves_temp :
    (enable
      (fun q => if q = "/var/lib/gauth/alice.new" then some ⟨[1], 0o600⟩
        else none)
      0o77 "/var/lib/gauth/alice" [] ⟨true, false, [], false, false⟩).ok =
      false ∧
    (enable
      (fun q => if q = "/var/lib/gauth/alice.new" then some ⟨[1], 0o600⟩
        else none)
      0o77 "/var/lib/gauth/alice" [] ⟨true, false, [], false, false⟩).fs
      "/var/lib/gauth/alice.new" = some ⟨[1], 0o600⟩ := by decide

/-- C1 (amended): for every failed `enable`, StatePath is unchanged from
its prior state; and whenever the failure is not the pre-unlink step,
TempPath does not exist after `enable` returns. -/
theorem c1_failed_enable_cleanup (fs : Fs) (umask : Nat) (sp : String)
    (ev : List ReadEvent) (faults : Faults)
    (h : (enable fs umask sp ev faults).ok = false) :
    (enable fs umask sp ev faults).fs sp = fs sp ∧
      (faults.preUnlinkFail = false →
        (enable fs umask sp ev faults).fs (sp ++ ".new") = none) := by
  have hne : sp ≠ sp ++ ".new" := self_ne_append_new sp
  by_cases hpu : faults.preUnlinkFail
  · constructor
    · simp [enable, hpu]
    · intro hc; rw [hc] at hpu; exact absurd hpu (by simp)
  · by_cases hop : faults.openFail
    · constructor
      · simp [enable, hpu, hop, fsRemove_other _ _ _ hne]
      · intro _; simp [enable, hpu, hop, fsRemove_self]
    · rcases hcl : copyLoop ev faults.writeOutcomes [] with ⟨ok, content, rem⟩
      cases ok with
      | false =>
        constructor
        · simp [enable, hpu, hop, openExcl_after_remove, hcl,
            fsRemove_other _ _ _ hne, fsSet_other _ _ _ _ hne]
        · intro _
          simp [enable, hpu, hop, openExcl_after_remove, hcl, fsRemove_self]
      | true =>
        by_cases hrn : faults.renameFail
        · constructor
          · simp [enable, hpu, hop, openExcl_after_remove, hcl, hrn,
              fsRemove_other _ _ _ hne, fsSet_other _ _ _ _ hne]
          · intro _
            simp [enable, hpu, hop, openExcl_after_remove, hcl, hrn,
              fsRemove_self]
        · exfalso
          simp [enable, hpu, hop, openExcl_after_remove, hcl, hrn] at h

/-- C1 witness: an `enable` made to fail by a read error on an empty
filesystem leaves StatePath absent (unchanged) and TempPath absent. -/
theorem c1_failed_enable_cleanup_witness :
    (enable (fun _ => none) 0o77 "/var/lib/gauth/alice"
      [ReadEvent.readErr] ⟨false, false, [], false, false⟩).fs
      "/var/lib/gauth/alice" = none ∧
    (enable (fun _ => none) 0o77 "/var/lib/gauth/alice"
      [ReadEvent.readErr] ⟨false, false, [], false, false⟩).fs
      ("/var/lib/gauth/alice" ++ ".new") = none := by
  have h := c1_failed_enable_cleanup (fun _ => none) 0o77
    "/var/lib/gauth/alice" [ReadEvent.readErr]
    ⟨false, false, [], false, false⟩ (by decide)
  exact ⟨h.1, h.2 rfl⟩

/-- C2: the copy loop checks only `wr == -1` (gauthctl.c lines 224-232),
so a short write goes undetected.  Payload `[97, 98]` arrives in one
chunk, the single write reports 1 byte written, yet `enable` succeeds
and StatePath holds only `[97]` - not the payload byte-for-byte. -/
theorem c2_short_write_silently_truncates :
    (enable (fun _ => none) 0o77 "/var/lib/gauth/alice"
      [ReadEvent.chunk [97, 98]]
      ⟨false, false, [Option.some 1], false, false⟩).ok = true ∧
    (enable (fun _ => none) 0o77 "/var/lib/gauth/alice"
      [ReadEvent.chunk [97, 98]]
      ⟨false, false, [Option.some 1], false, false⟩).fs
      "/var/lib/gauth/alice" = some ⟨[97], 0o600⟩ := by decide

/-- C3: the claim as frozen is false: a username containing a slash is
not rejected.  With the state file for the escaping path present, a root
`--disable ../x` builds `/var/lib/gauth/../x`, unlinks it - a filesystem
syscall against a path outside StateDir - and exits 0; no
InvalidUsername failure exists in the code. -/
theorem c3_counterexample_slash_username :
    (mainC ⟨fun q => if q = "/var/lib/gauth/../x" then some ⟨[7], 0o600⟩
        else none,
      0, fun u => if u = 0 then some "root" else none, 0o22⟩
      [Arg.disableOpt "../x"] []
      ⟨false, false, [], false, false⟩).exitCode = some 0 ∧
    (mainC ⟨fun q => if q = "/var/lib/gauth/../x" then some ⟨[7], 0o600⟩
        else none,
      0, fun u => if u = 0 then some "root" else none, 0o22⟩
      [Arg.disableOpt "../x"] []
      ⟨false, false, [], false, false⟩).fs "/var/lib/gauth/../x" =
      none := by decide

/-- C3 (amended): `get_state_path` performs no username validation - it
returns `GAUTH_STATEDIR ++ "/" ++ username` for every username - and a
root `--disable` proceeds to unlink that concatenated path for an
arbitrary username, including ones containing a slash that escape
StateDir.  (A NUL byte cannot occur in an argv-supplied username.) -/
theorem c3_no_username_validation :
    (∀ u : String, get_state_path u = GAUTH_STATEDIR ++ "/" ++ u) ∧
    (∀ (w : World) (ev : List ReadEvent) (faults : Faults)
      (u name : String), w.uid = 0 → w.userdb 0 = some name →
      faults.removeFail = false →
        (mainC w [Arg.disableOpt u] ev faults).exitCode = some 0 ∧
        (mainC w [Arg.disableOpt u] ev faults).fs
          (GAUTH_STATEDIR ++ "/" ++ u) = none) :=
  ⟨fun _ => rfl,
    fun w ev faults u name h1 h2 h3 => main_root_disable w ev faults u name h1 h2 h3⟩

/-- C3 witness: root disabling the slash-bearing username
"../etc/shadow" removes the file at the escaping concatenated path. -/
theorem c3_no_username_validation_witness :
    (mainC ⟨fun q => if q = "/var/lib/gauth/../etc/shadow" then
        some ⟨[9], 0o600⟩ else none,
      0, fun u => if u = 0 then some "root" else none, 0o22⟩
      [Arg.disableOpt "../etc/shadow"] []
      ⟨false, false, [], false, false⟩).exitCode = some 0 ∧
    (mainC ⟨fun q => if q = "/var/lib/gauth/../etc/shadow" then
        some ⟨[9], 0o600⟩ else none,
      0, fun u => if u = 0 then some "root" else none, 0o22⟩
      [Arg.disableOpt "../etc/shadow"] []
      ⟨false, false, [], false, false⟩).fs
      (GAUTH_STATEDIR ++ "/" ++ "../etc/shadow") = none :=
  c3_no_username_validation.2 _ _ _ "../etc/shadow" "root" rfl
    (by decide) rfl

/-- C4: with StatePath present (contents `OLD`, mode 0600), `--enable`
takes the AlreadyEnabled branch (gauthctl.c lines 350-357): the file is
unchanged and fd 3 is not read - but the branch never assigns `ret`, so
`return ret ? 0 : 1` reads an uninitialized variable and the exit status
is undefined (modelled `none`) rather than the claimed 1. -/
theorem c4_already_enabled_no_exit_status :
    (mainC ⟨fun q => if q = "/var/lib/gauth/alice" then
        some ⟨[79, 76, 68], 0o600⟩ else none,
      1000, fun u => if u = 1000 then some "alice" else none, 0o22⟩
      [Arg.enableOpt] [ReadEvent.chunk [78, 69, 87]]
      ⟨false, false, [], false, false⟩).exitCode = none ∧
    (mainC ⟨fun q => if q = "/var/lib/gauth/alice" then
        some ⟨[79, 76, 68], 0o600⟩ else none,
      1000, fun u => if u = 1000 then some "alice" else none, 0o22⟩
      [Arg.enableOpt] [ReadEvent.chunk [78, 69, 87]]
      ⟨false, false, [], false, false⟩).fs "/var/lib/gauth/alice" =
      some ⟨[79, 76, 68], 0o600⟩ ∧
    (mainC ⟨fun q => if q = "/var/lib/gauth/alice" then
        some ⟨[79, 76, 68], 0o600⟩ else none,
      1000, fun u => if u = 1000 then some "alice" else none, 0o22⟩
      [Arg.enableOpt] [ReadEvent.chunk [78, 69, 87]]
      ⟨false, false, [], false, false⟩).remaining =
      [ReadEvent.chunk [78, 69, 87]] := by decide

/-- C5: a non-root `--disable alice` takes the NotAuthorized branch
(gauthctl.c lines 366-369): no unlink happens and StatePath is unchanged
- but the branch never assigns `ret`, so the exit status is undefined
(modelled `none`) rather than the claimed 1. -/
theorem c5_nonroot_disable_no_exit_status :
    (mainC ⟨fun q => if q = "/var/lib/gauth/alice" then
        some ⟨[79, 76, 68], 0o600⟩ else none,
      1000, fun u => if u = 1000 then some "alice" else none, 0o22⟩
      [Arg.disableOpt "alice"] []
      ⟨false, false, [], false, false⟩).exitCode = none ∧
    (mainC ⟨fun q => if q = "/var/lib/gauth/alice" then
        some ⟨[79, 76, 68], 0o600⟩ else none,
      1000, fun u => if u = 1000 then some "alice" else none, 0o22⟩
      [Arg.disableOpt "alice"] []
      ⟨false, false, [], false, false⟩).fs "/var/lib/gauth/alice" =
      some ⟨[79, 76, 68], 0o600⟩ := by decide

/-- C6: (1) every successful `enable` under the umask 077 that `main`
installs leaves StatePath at mode 0600; (2) any path a `main` run
changes is either removed or holds a file of mode 0600 (no file is ever
created at a laxer mode); (3) the temp-file creation is exclusive: the
`open` refuses any existing path; (4) once the command line parses -
before any file-creating call - `main` has set the umask to 077. -/
theorem c6_mode_and_umask :
    (∀ (fs : Fs) (sp : String) (ev : List ReadEvent) (faults : Faults),
      (enable fs 0o77 sp ev faults).ok = true →
        ∃ c, (enable fs 0o77 sp ev faults).fs sp = some ⟨c, 0o600⟩) ∧
    (∀ (w : World) (args : List Arg) (ev : List ReadEvent)
      (faults : Faults) (p : String),
      (mainC w args ev faults).fs p ≠ w.fs p →
        (mainC w args ev faults).fs p = none ∨
        ∃ c, (mainC w args ev faults).fs p = some ⟨c, 0o600⟩) ∧
    (∀ (fs : Fs) (p : String) (m u : Nat),
      fs p ≠ none → openExcl fs p m u = none) ∧
    (∀ (w : World) (args : List Arg) (ev : List ReadEvent)
      (faults : Faults) (c : Cmd),
      parseLoop args Cmd.null false = ParseResult.parsed c →
        (mainC w args ev faults).umask = 0o77) := by
  have hmask : applyUmask 0o600 0o77 = 0o600 := by decide
  refine ⟨?_, ?_, openExcl_existing, main_umask_after_parse⟩
  · intro fs sp ev faults h
    have h2 := enable_success_mode fs 0o77 sp ev faults h
    rwa [hmask] at h2
  · intro w args ev faults p h
    rcases main_fs_cases w args ev faults p with h1 | h1 | h1
    · exact absurd h1 h
    · exact Or.inl h1
    · exact Or.inr h1

/-- C6 witness: a concrete successful enable yields mode 0600; a root
disable changes its target path to absent; exclusive create refuses an
existing path; a parsed `--status` run has umask 077. -/
theorem c6_mode_and_umask_witness :
    (∃ c, (enable (fun _ => none) 0o77 "/var/lib/gauth/alice"
      [ReadEvent.chunk [5]] ⟨false, false, [], false, false⟩).fs
      "/var/lib/gauth/alice" = some ⟨c, 0o600⟩) ∧
    ((mainC ⟨fun q => if q = "/var/lib/gauth/alice" then some ⟨[1], 0o600⟩
        else none,
      0, fun u => if u = 0 then some "root" else none, 0o22⟩
      [Arg.disableOpt "alice"] []
      ⟨false, false, [], false, false⟩).fs "/var/lib/gauth/alice" = none ∨
      ∃ c, (mainC ⟨fun q => if q = "/var/lib/gauth/alice" then
          some ⟨[1], 0o600⟩ else none,
        0, fun u => if u = 0 then some "root" else none, 0o22⟩
        [Arg.disableOpt "alice"] []
        ⟨false, false, [], false, false⟩).fs "/var/lib/gauth/alice" =
        some ⟨c, 0o600⟩) ∧
    openExcl (fun _ => some ⟨[], 0⟩) "/p" 0o600 0o77 = none ∧
    (mainC ⟨fun _ => none, 0, fun u => if u = 0 then some "root" else none,
      0o22⟩ [Arg.statusOpt] []
      ⟨false, false, [], false, false⟩).umask = 0o77 :=
  ⟨c6_mode_and_umask.1 _ _ _ _ (by decide),
    c6_mode_and_umask.2.1 _ _ _ _ _ (by decide),
    c6_mode_and_umask.2.2.1 _ _ _ _ (by decide),
    c6_mode_and_umask.2.2.2 _ _ _ _ Cmd.status (by decide)⟩

/-- C7: `status` is true exactly when a file exists at the path and is
readable (owner-read bit set); the `--status` dispatch exits 0 when the
state file is reported present and 1 when absent, mutating nothing and
reading nothing from fd 3. -/
theorem c7_status_reports_presence :
    (∀ (fs : Fs) (p : String),
      status fs p = true ↔
        ∃ f, fs p = some f ∧ Nat.land f.mode 0o400 ≠ 0) ∧
    (∀ (w : World) (args : List Arg) (ev : List ReadEvent)
      (faults : Faults) (name : String),
      parseLoop args Cmd.null false = ParseResult.parsed Cmd.status →
      get_user w = some name →
        (mainC w args ev faults).exitCode =
          some (if status w.fs (get_state_path name) then 0 else 1) ∧
        (∀ q, (mainC w args ev faults).fs q = w.fs q) ∧
        (mainC w args ev faults).remaining = ev) :=
  ⟨status_iff_readable, main_status_behavior⟩

/-- C7 witness: `--status` for a present, readable state file exits with
the computed status code, leaves that file in place, and consumes no
fd-3 events. -/
theorem c7_status_reports_presence_witness :
    (mainC ⟨fun q => if q = "/var/lib/gauth/alice" then some ⟨[1], 0o600⟩
        else none,
      1000, fun u => if u = 1000 then some "alice" else none, 0o22⟩
      [Arg.statusOpt] [] ⟨false, false, [], false, false⟩).exitCode =
      some (if status
        (fun q => if q = "/var/lib/gauth/alice" then some ⟨[1], 0o600⟩
          else none)
        (get_state_path "alice") then 0 else 1) ∧
    (mainC ⟨fun q => if q = "/var/lib/gauth/alice" then some ⟨[1], 0o600⟩
        else none,
      1000, fun u => if u = 1000 then some "alice" else none, 0o22⟩
      [Arg.statusOpt] [] ⟨false, false, [], false, false⟩).remaining =
      [] := by
  have h := c7_status_reports_presence.2
    ⟨fun q => if q = "/var/lib/gauth/alice" then some ⟨[1], 0o600⟩
      else none,
    1000, fun u => if u = 1000 then some "alice" else none, 0o22⟩
    [Arg.statusOpt] [] ⟨false, false, [], false, false⟩ "alice"
    (by decide) (by decide)
  exact ⟨h.1, h.2.2⟩

/-- C8: `disable` is idempotent - with no exogenous unlink fault it
succeeds on a present file and again (via ENOENT treated as success) on
the then-absent file, leaving StatePath absent; and a non-ENOENT unlink
failure reports failure (RemoveFailed) with the filesystem unchanged. -/
theorem c8_disable_idempotent (fs : Fs) (p : String) :
    (disable fs p false).1 = true ∧
    (disable (disable fs p false).2 p false).1 = true ∧
    (disable (disable fs p false).2 p false).2 p = none ∧
    (disable fs p true).1 = false ∧
    (∀ q, (disable fs p true).2 q = fs q) := by
  refine ⟨by simp [disable], by simp [disable],
    by simp [disable, fsRemove], by simp [disable],
    fun q => by simp [disable]⟩

/-- C9: the claim is contradicted by the code: gauthctl.c line 106
overwrites the pam_authenticate result with PAM_SUCCESS before the
check, so a failing authenticate step (pamAuth = false) still yields
`authenticate = true` when the remaining steps succeed, instead of the
claimed failure; moreover the dispatcher call to `authenticate` is
commented out entirely (gauthctl.c lines 339-343). -/
theorem c9_authenticate_ignores_auth_failure :
    authenticate true false true true = true := by rfl

/-- C10: the claim as frozen is false for multiple primary actions: with
`--enable --status` on the command line (and the state file present),
the getopt loop lets the last action win, `main` runs the status query
and exits 0 - no usage message, no exit 1. -/
theorem c10_counterexample_two_actions :
    parseLoop [Arg.enableOpt, Arg.statusOpt] Cmd.null false =
      ParseResult.parsed Cmd.status ∧
    (mainC ⟨fun q => if q = "/var/lib/gauth/alice" then some ⟨[1], 0o600⟩
        else none,
      1000, fun u => if u = 1000 then some "alice" else none, 0o22⟩
      [Arg.enableOpt, Arg.statusOpt] []
      ⟨false, false, [], false, false⟩).exitCode = some 0 := by decide

/-- C10 (amended): supplying no primary action, or leaving any
non-option positional argument, yields the usage branch, which exits 1
and performs no state-file operation; but supplying multiple primary
actions is not rejected: a command is selected only when at least one
action option appeared and no positional argument did, and the selected
command is the one set by the last action option. -/
theorem c10_usage_discipline :
    (∀ (args : List Arg) (cmd : Cmd) (pos : Bool) (c : Cmd),
      parseLoop args cmd pos = ParseResult.parsed c →
        (∀ a ∈ args, isPositionalArg a = false) ∧ pos = false ∧
        c = List.foldl actionStep cmd args ∧ c ≠ Cmd.null) ∧
    (∀ (args : List Arg) (pos : Bool),
      (∀ a ∈ args, isPositionalArg a = true) →
        parseLoop args Cmd.null pos = ParseResult.exitUsage) ∧
    (∀ (w : World) (args : List Arg) (ev : List ReadEvent)
      (faults : Faults),
      parseLoop args Cmd.null false = ParseResult.exitUsage →
        (mainC w args ev faults).exitCode = some 1 ∧
        (∀ q, (mainC w args ev faults).fs q = w.fs q) ∧
        (mainC w args ev faults).remaining = ev) :=
  ⟨parseLoop_parsed, parseLoop_only_positionals, main_usage_exit⟩

/-- C10 witness: `--status` parses to the status command (the fold over
action options); a lone positional argument yields usage; an empty
command line makes `main` exit 1. -/
theorem c10_usage_discipline_witness :
    Cmd.status = List.foldl actionStep Cmd.null [Arg.statusOpt] ∧
    parseLoop [Arg.positional "x"] Cmd.null false =
      ParseResult.exitUsage ∧
    (mainC ⟨fun _ => none, 0, fun _ => some "root", 0o22⟩ [] []
      ⟨false, false, [], false, false⟩).exitCode = some 1 :=
  ⟨(c10_usage_discipline.1 [Arg.statusOpt] Cmd.null false Cmd.status
      (by decide)).2.2.1,
    c10_usage_discipline.2.1 [Arg.positional "x"] false (by decide),
    (c10_usage_discipline.2.2 _ [] [] _ (by decide)).1⟩
